import Mathlib

/-!
Verification of the corednsprobe probing and statistics engine.

The definitions below are a shallow embedding of `main.go` and
`pkg/metrics` (the `QueryStatus`-labelled variant that `main.go` calls):
the probe goroutine body, the outcome classification, the per-endpoint
atomic counters, the summary rendering, the startup discovery check and
the tick scheduler's fan-out/join loop.  Machine `int64` counters are
modelled as unbounded `Int`: every quantity the program ever adds is a
nonnegative nanosecond duration or the constant 1, and the sums stay far
below 2^63 in any execution the process can perform, so wraparound never
occurs and is not modelled.
-/

namespace CorednsProbe

/-- Probe outcome classification, mirroring the `QueryStatus` constants of
the metrics package: success / timeout / error. -/
inductive QueryStatus
  | success
  | timeout
  | error
deriving DecidableEq

/-- Per-endpoint statistics: the three atomic counters of `epStats` in
`main.go` (`total`, `fail`, `rttNanos`). -/
structure EpStats where
  total : Int
  fail : Int
  rttNanos : Int
deriving DecidableEq

/-- The zero-initialised record each target starts with (`&epStats{}`). -/
def EpStats.zero : EpStats := ⟨0, 0, 0⟩

/-- The error value returned by `resolver.LookupHost`: when present it
either satisfies `errors.Is(err, context.DeadlineExceeded)` or is some
other failure (connection refused, network unreachable, protocol error). -/
inductive LookupError
  | deadlineExceeded
  | other (msg : String)
deriving DecidableEq

/-- Whether this error value is the deadline-exceeded condition. -/
def LookupError.isDeadlineExceeded : LookupError → Bool
  | .deadlineExceeded => true
  | .other _ => false

/-- Result of `lookupThrough`: elapsed wall-clock nanoseconds (`time.Since`
on the monotonic clock, hence nonnegative) and the error, if any. -/
structure ProbeResult where
  rtt : Nat
  err : Option LookupError
deriving DecidableEq

/-- `errors.Is(err, context.DeadlineExceeded)` with `err` possibly nil. -/
def errIsDeadlineExceeded : Option LookupError → Bool
  | none => false
  | some e => e.isDeadlineExceeded

/-- Outcome classification performed by the probe goroutine in `main.go`:
the probe failed when `err != nil || rtt > queryTimeout`; among failures it
is a timeout exactly when `errors.Is(err, context.DeadlineExceeded)`;
otherwise it is a success. -/
def classify (queryTimeout : Nat) (r : ProbeResult) : QueryStatus :=
  if r.err.isSome ∨ queryTimeout < r.rtt then
    if errIsDeadlineExceeded r.err then .timeout else .error
  else .success

/-- One `RecordQuery` call: the (endpoint, status, rtt) observation the
probe goroutine forwards to the metrics sink. -/
structure MetricsEvent where
  endpoint : String
  status : QueryStatus
  rttNanos : Nat
deriving DecidableEq

/-- Body of the probe goroutine in `main.go` (lines 105-124): increment
`total`, run the lookup, then either increment `fail` and report
timeout/error, or report success and add the rtt to `rttNanos`.  Returns
the updated statistics and the single `RecordQuery` event the goroutine
emits. -/
def probeStep (queryTimeout : Nat) (addr : String) (st : EpStats) (r : ProbeResult) :
    EpStats × MetricsEvent :=
  let st1 : EpStats := { st with total := st.total + 1 }
  if r.err.isSome ∨ queryTimeout < r.rtt then
    let st2 : EpStats := { st1 with fail := st1.fail + 1 }
    if errIsDeadlineExceeded r.err then
      (st2, ⟨addr, .timeout, r.rtt⟩)
    else
      (st2, ⟨addr, .error, r.rtt⟩)
  else
    ({ st1 with rttNanos := st1.rttNanos + (r.rtt : Int) }, ⟨addr, .success, r.rtt⟩)

/-- The Endpoint Statistics contract operation `recordOutcome(outcome,
elapsed)`, exactly as the probe goroutine implements it inline: `total`
always gains 1, `fail` gains 1 on non-success, `rttNanos` gains the
elapsed nanoseconds on success. -/
def recordOutcome (st : EpStats) (o : QueryStatus) (e : Nat) : EpStats :=
  { total := st.total + 1
    fail := st.fail + (if o = .success then 0 else 1)
    rttNanos := st.rttNanos + (if o = .success then (e : Int) else 0) }

/-- The statistics part of the goroutine body is `recordOutcome` at the
classified outcome. -/
theorem probeStep_fst (qt : Nat) (addr : String) (st : EpStats) (r : ProbeResult) :
    (probeStep qt addr st r).1 = recordOutcome st (classify qt r) r.rtt := by
  unfold probeStep classify recordOutcome
  rcases r with ⟨rtt, err⟩
  by_cases h : (err.isSome ∨ qt < rtt)
  · simp only [if_pos h]
    by_cases hd : errIsDeadlineExceeded err = true
    · simp [hd]
    · simp [hd]
  · simp [if_neg h]

/-- The metrics event the goroutine emits carries the probed address, the
classified status and the measured rtt. -/
theorem probeStep_snd (qt : Nat) (addr : String) (st : EpStats) (r : ProbeResult) :
    (probeStep qt addr st r).2 = ⟨addr, classify qt r, r.rtt⟩ := by
  unfold probeStep classify
  rcases r with ⟨rtt, err⟩
  by_cases h : (err.isSome ∨ qt < rtt)
  · simp only [if_pos h]
    by_cases hd : errIsDeadlineExceeded err = true
    · simp [hd]
    · simp [hd]
  · simp [if_neg h]

/-- Spec-side predicate, following the spec's words: the lookup completed
(no error) within the deadline. -/
def completedWithinDeadline (queryTimeout : Nat) (r : ProbeResult) : Prop :=
  r.err = none ∧ r.rtt ≤ queryTimeout

/-- Claim C1: for every probe recorded against one target's statistics,
recording an outcome with elapsed time e increments `total` by exactly 1;
increments `fail` by exactly 1 iff the outcome is not Success; adds e to
`rttNanos` iff the outcome is Success, leaving it unchanged otherwise; and
the probe goroutine's inline update is exactly `recordOutcome` at the
outcome it classifies. -/
theorem C1_recordOutcome_contract (qt : Nat) (addr : String) (st : EpStats)
    (r : ProbeResult) (o : QueryStatus) (e : Nat) :
    (recordOutcome st o e).total = st.total + 1 ∧
    ((recordOutcome st o e).fail = st.fail + 1 ↔ o ≠ .success) ∧
    ((recordOutcome st o e).fail = st.fail ↔ o = .success) ∧
    (o = .success → (recordOutcome st o e).rttNanos = st.rttNanos + (e : Int)) ∧
    (o ≠ .success → (recordOutcome st o e).rttNanos = st.rttNanos) ∧
    (probeStep qt addr st r).1 = recordOutcome st (classify qt r) r.rtt := by
  refine ⟨rfl, ?_, ?_, ?_, ?_, probeStep_fst qt addr st r⟩
  · unfold recordOutcome
    by_cases h : o = .success <;> simp [h]
  · unfold recordOutcome
    by_cases h : o = .success <;> simp [h]
  · intro h
    unfold recordOutcome
    simp [h]
  · intro h
    unfold recordOutcome
    simp [h]

/-- Witness for C1 at concrete inputs: a timeout leaves `rttNanos` alone
and bumps `fail`; a success adds its elapsed time. -/
theorem C1_recordOutcome_contract_witness :
    (recordOutcome EpStats.zero .timeout 7).fail = EpStats.zero.fail + 1 ∧
    (recordOutcome EpStats.zero .success 7).rttNanos = EpStats.zero.rttNanos + 7 := by
  constructor
  · exact (C1_recordOutcome_contract 100 "10.0.0.1" EpStats.zero ⟨50, none⟩ .timeout 7).2.1.mpr
      (by decide)
  · exact (C1_recordOutcome_contract 100 "10.0.0.1" EpStats.zero ⟨50, none⟩ .success 7).2.2.2.1
      rfl

/-- Claim C3: each probe is assigned exactly one of the three outcome
variants; Success iff the lookup completed within the deadline; Timeout iff
the lookup terminated with a deadline-exceeded condition; Error exactly in
the remaining cases. -/
theorem C3_classification (qt : Nat) (r : ProbeResult) :
    (classify qt r = .success ↔ completedWithinDeadline qt r) ∧
    (classify qt r = .timeout ↔ errIsDeadlineExceeded r.err = true) ∧
    (classify qt r = .error ↔
      ¬ completedWithinDeadline qt r ∧ errIsDeadlineExceeded r.err = false) ∧
    (classify qt r = .success ∨ classify qt r = .timeout ∨ classify qt r = .error) ∧
    ¬ (classify qt r = .success ∧ classify qt r = .timeout) ∧
    ¬ (classify qt r = .success ∧ classify qt r = .error) ∧
    ¬ (classify qt r = .timeout ∧ classify qt r = .error) := by
  rcases r with ⟨rtt, err⟩
  unfold classify completedWithinDeadline
  rcases err with _ | e
  · by_cases h : qt < rtt
    · simp [errIsDeadlineExceeded, h, Nat.not_le.mpr h]
    · simp [errIsDeadlineExceeded, h, Nat.not_lt.mp h]
  · rcases e with _ | msg <;>
      simp [errIsDeadlineExceeded, LookupError.isDeadlineExceeded]

/-- Witness for C3 at a concrete probe: a lookup that finished in 50ns
with no error and a 100ns deadline is classified Success. -/
theorem C3_classification_witness :
    classify 100 ⟨50, none⟩ = .success :=
  (C3_classification 100 ⟨50, none⟩).1.mpr ⟨rfl, by decide⟩

/-- Claim C10: a probe whose lookup returns no error but whose elapsed time
exceeds the query timeout is counted as failed (`fail` incremented,
`rttNanos` unchanged) and is forwarded to the metrics sink with status
error — not timeout and not success. -/
theorem C10_slow_lookup_is_error (qt : Nat) (addr : String) (st : EpStats)
    (rtt : Nat) (h : qt < rtt) :
    ((probeStep qt addr st ⟨rtt, none⟩).1).fail = st.fail + 1 ∧
    ((probeStep qt addr st ⟨rtt, none⟩).1).rttNanos = st.rttNanos ∧
    ((probeStep qt addr st ⟨rtt, none⟩).1).total = st.total + 1 ∧
    (probeStep qt addr st ⟨rtt, none⟩).2.status = .error ∧
    (probeStep qt addr st ⟨rtt, none⟩).2.status ≠ .timeout ∧
    (probeStep qt addr st ⟨rtt, none⟩).2.status ≠ .success := by
  have hc : classify qt ⟨rtt, none⟩ = .error := by
    unfold classify
    simp [errIsDeadlineExceeded, h]
  rw [probeStep_fst, probeStep_snd, hc]
  unfold recordOutcome
  refine ⟨by simp, by simp, rfl, rfl, by simp, by simp⟩

/-- Witness for C10: with a 100ns timeout, an error-free lookup measuring
150ns is recorded as a failure with status error. -/
theorem C10_slow_lookup_is_error_witness :
    ((probeStep 100 "10.0.0.1" EpStats.zero ⟨150, none⟩).1).fail = EpStats.zero.fail + 1 ∧
    (probeStep 100 "10.0.0.1" EpStats.zero ⟨150, none⟩).2.status = .error := by
  have h := C10_slow_lookup_is_error 100 "10.0.0.1" EpStats.zero 150 (by decide)
  exact ⟨h.1, h.2.2.2.1⟩

/-- Statistics accumulated by a sequence of probes against one target,
starting from the zero-initialised record. -/
def runProbes (qt : Nat) (addr : String) (rs : List ProbeResult) : EpStats :=
  rs.foldl (fun st r => (probeStep qt addr st r).1) EpStats.zero

theorem runProbes_append_single (qt : Nat) (addr : String)
    (rs : List ProbeResult) (r : ProbeResult) :
    runProbes qt addr (rs ++ [r]) = (probeStep qt addr (runProbes qt addr rs) r).1 := by
  unfold runProbes
  rw [List.foldl_append]
  rfl

theorem recordOutcome_fail_le (st : EpStats) (o : QueryStatus) (e : Nat) :
    st.fail ≤ (recordOutcome st o e).fail ∧
    (recordOutcome st o e).fail ≤ st.fail + 1 := by
  unfold recordOutcome
  by_cases h : o = .success <;> simp [h]

theorem runProbes_fail_le_total (qt : Nat) (addr : String) (rs : List ProbeResult) :
    0 ≤ (runProbes qt addr rs).fail ∧
    (runProbes qt addr rs).fail ≤ (runProbes qt addr rs).total := by
  induction rs using List.reverseRecOn with
  | nil => exact ⟨le_refl 0, le_refl 0⟩
  | append_singleton rs r ih =>
    rw [runProbes_append_single, probeStep_fst]
    have h1 := recordOutcome_fail_le (runProbes qt addr rs) (classify qt r) r.rtt
    have h2 : (recordOutcome (runProbes qt addr rs) (classify qt r) r.rtt).total =
        (runProbes qt addr rs).total + 1 := rfl
    omega

theorem recordOutcome_rtt_mono (st : EpStats) (o : QueryStatus) (e : Nat) :
    st.rttNanos ≤ (recordOutcome st o e).rttNanos ∧
    (st.rttNanos < (recordOutcome st o e).rttNanos → o = .success) := by
  unfold recordOutcome
  by_cases h : o = .success
  · refine ⟨?_, fun _ => h⟩
    simp only [h, if_pos rfl]
    omega
  · refine ⟨?_, ?_⟩
    · simp [h]
    · simp [h]

/-- Claim C2: for every sequence of outcomes recorded to one target's
statistics from the zero record, `fail ≤ total` holds after every step
(every prefix of a sequence being itself a sequence), and `rttNanos` is
monotonically non-decreasing, strictly increasing only at steps that record
a Success outcome. -/
theorem C2_stats_invariant (qt : Nat) (addr : String) (rs : List ProbeResult)
    (r : ProbeResult) :
    0 ≤ (runProbes qt addr rs).fail ∧
    (runProbes qt addr rs).fail ≤ (runProbes qt addr rs).total ∧
    (runProbes qt addr rs).rttNanos ≤ (runProbes qt addr (rs ++ [r])).rttNanos ∧
    ((runProbes qt addr rs).rttNanos < (runProbes qt addr (rs ++ [r])).rttNanos →
      classify qt r = .success) := by
  have hi := runProbes_fail_le_total qt addr rs
  have hm := recordOutcome_rtt_mono (runProbes qt addr rs) (classify qt r) r.rtt
  rw [runProbes_append_single, probeStep_fst]
  exact ⟨hi.1, hi.2, hm.1, hm.2⟩

/-- Witness for C2 at a concrete sequence: after a success (40ns) and a
timeout, `fail ≤ total` and appending another success does not decrease the
rtt sum. -/
theorem C2_stats_invariant_witness :
    (runProbes 100 "10.0.0.1" [⟨40, none⟩, ⟨120, some .deadlineExceeded⟩]).fail ≤
      (runProbes 100 "10.0.0.1" [⟨40, none⟩, ⟨120, some .deadlineExceeded⟩]).total ∧
    (runProbes 100 "10.0.0.1" [⟨40, none⟩, ⟨120, some .deadlineExceeded⟩]).rttNanos ≤
      (runProbes 100 "10.0.0.1"
        ([⟨40, none⟩, ⟨120, some .deadlineExceeded⟩] ++ [⟨30, none⟩])).rttNanos := by
  have h := C2_stats_invariant 100 "10.0.0.1"
    [⟨40, none⟩, ⟨120, some .deadlineExceeded⟩] ⟨30, none⟩
  exact ⟨h.2.1, h.2.2.1⟩

/-- The status label string attached to the histogram observation, from the
`QueryStatus` constants of the metrics package. -/
def statusLabel : QueryStatus → String
  | .success => "success"
  | .timeout => "timeout"
  | .error => "error"

/-- The metrics sink: the `coredns_probe_rtt_milliseconds` histogram, one
observation list per run, each observation labelled by endpoint and status
and valued in milliseconds. -/
structure MetricsState where
  observations : List (String × String × ℚ)
deriving DecidableEq

/-- `ProbeMetrics.RecordQuery` of the metrics package: observe the rtt (in
milliseconds, `float64(rtt.Nanoseconds()) / 1e6`) in the histogram labelled
with the endpoint and the status, for every status. -/
def RecordQuery (m : MetricsState) (endpoint : String) (status : QueryStatus)
    (rttNanos : Nat) : MetricsState :=
  ⟨m.observations ++ [(endpoint, statusLabel status, (rttNanos : ℚ) / 1000000)]⟩

/-- The full effect of one probe goroutine on the sink: it makes exactly the
one `RecordQuery` call carried by its metrics event. -/
def probeSinkEffect (qt : Nat) (addr : String) (st : EpStats) (r : ProbeResult)
    (m : MetricsState) : MetricsState :=
  RecordQuery m (probeStep qt addr st r).2.endpoint (probeStep qt addr st r).2.status
    (probeStep qt addr st r).2.rttNanos

/-- Claim C7: for every probe, the metrics sink receives exactly one
observation of the probe's elapsed latency in the histogram, regardless of
outcome; it is labelled with the probe's target as endpoint and with a
status that is exactly one of success, timeout or error (the classified
outcome).  Latency is never dropped for non-success outcomes. -/
theorem C7_sink_records_every_probe (qt : Nat) (addr : String) (st : EpStats)
    (r : ProbeResult) (m : MetricsState) :
    (probeSinkEffect qt addr st r m).observations =
      m.observations ++ [(addr, statusLabel (classify qt r), (r.rtt : ℚ) / 1000000)] ∧
    (statusLabel (classify qt r) = "success" ∨
      statusLabel (classify qt r) = "timeout" ∨
      statusLabel (classify qt r) = "error") := by
  constructor
  · unfold probeSinkEffect RecordQuery
    rw [probeStep_snd]
  · cases classify qt r
    · exact Or.inl rfl
    · exact Or.inr (Or.inl rfl)
    · exact Or.inr (Or.inr rfl)

/-- Decimal digits of n, most significant first; the fuel argument is
n + 1 at the top call, always enough since a number has at most as many
digits as its magnitude plus one. -/
def natDigitsAux : Nat → Nat → List Char
  | 0, _ => []
  | fuel + 1, n =>
    if n < 10 then [Nat.digitChar n]
    else natDigitsAux fuel (n / 10) ++ [Nat.digitChar (n % 10)]

/-- Decimal rendering of a natural number, as Go's %d prints it. -/
def natDigits (n : Nat) : List Char := natDigitsAux (n + 1) n

/-- Decimal rendering of an integer, as Go's %d prints it. -/
def intStr (i : Int) : String :=
  if i < 0 then ⟨'-' :: natDigits i.natAbs⟩ else ⟨natDigits i.natAbs⟩

/-- Fixed-point rendering of the fraction num/den to d decimal places,
rounding half away from zero: the embedding of Go's %.df of the float64
quotient, exact for the nonnegative quotients the summary produces (the
one-ulp cases where float64 rounding could differ by a final digit are
irrelevant to every property stated about it). -/
def fmtFixedFrac (d : Nat) (num den : Int) : String :=
  let scaled : Int := (2 * num * (10 : Int) ^ d + den) / (2 * den)
  let fr := (scaled % (10 : Int) ^ d).toNat
  let frs := natDigits fr
  ⟨natDigits (scaled / (10 : Int) ^ d).toNat ++
    '.' :: (List.replicate (d - frs.length) '0' ++ frs)⟩

theorem digitChar_isDigit (d : Nat) (h : d < 10) : (Nat.digitChar d).isDigit = true := by
  interval_cases d <;> decide

theorem natDigitsAux_all_digit (fuel : Nat) :
    ∀ n, ∀ c ∈ natDigitsAux fuel n, c.isDigit = true := by
  induction fuel with
  | zero => intro n c hc; simp [natDigitsAux] at hc
  | succ fuel ih =>
    intro n c hc
    rw [natDigitsAux] at hc
    by_cases h : n < 10
    · rw [if_pos h] at hc
      simp at hc
      subst hc
      exact digitChar_isDigit n h
    · rw [if_neg h] at hc
      rcases List.mem_append.mp hc with h1 | h2
      · exact ih (n / 10) c h1
      · simp at h2
        subst h2
        exact digitChar_isDigit (n % 10) (Nat.mod_lt n (by omega))

theorem natDigits_all_digit (n : Nat) : ∀ c ∈ natDigits n, c.isDigit = true :=
  natDigitsAux_all_digit (n + 1) n

/-- The content of one console summary line, before string formatting:
either the no-queries marker or the computed percentage, counts and
optional average (values as exact rationals standing in for the float64
arithmetic, whose rounding plays no role in any property stated here). -/
inductive SummaryLine
  | noQueries (addr : String)
  | stats (addr : String) (pct : ℚ) (ok total : Int) (avg : Option ℚ)
deriving DecidableEq

/-- The average-latency component of a summary line; none both for the
no-queries line and for the n/a average. -/
def SummaryLine.avg : SummaryLine → Option ℚ
  | .noQueries _ => none
  | .stats _ _ _ _ a => a

/-- The summary ticker body of `main.go` (lines 128-148) for one target,
computing from the snapshot (total, fail, rttSum): the no-queries line when
total == 0, otherwise ok := total - fail, the success percentage
ok/total*100, and the average rtt in milliseconds only when ok > 0. -/
def summaryLine (addr : String) (total fail rttSum : Int) : SummaryLine :=
  if total = 0 then .noQueries addr
  else
    let ok := total - fail
    .stats addr (((total - fail : Int) : ℚ) / (total : ℚ) * 100) ok total
      (if 0 < ok then some ((rttSum : ℚ) / ((total - fail : Int) : ℚ) / 1000000) else none)

/-- Every divisor the summary ticker body uses on a snapshot, in the order
the divisions are performed: nothing when total == 0; otherwise total (for
the percentage) and, only when ok > 0, ok and the 1e6 nanosecond-to-
millisecond constant (for the average). -/
def summaryDivisors (total fail : Int) : List ℚ :=
  if total = 0 then []
  else
    let ok := total - fail
    [(total : ℚ)] ++ (if 0 < ok then [((total - fail : Int) : ℚ), 1000000] else [])

/-- Claim C5: each summary line is computed from the snapshot as success
percentage (total-failed)/total*100 with the no-queries line exactly when
total == 0; the average latency successRttSum/(total-failed) is reported
unavailable exactly when there are zero successes; and every division the
summary performs has a nonzero divisor. -/
theorem C5_summary_arithmetic (addr : String) (total fail rttSum : Int) :
    (summaryLine addr total fail rttSum = .noQueries addr ↔ total = 0) ∧
    (total ≠ 0 → summaryLine addr total fail rttSum =
      .stats addr (((total - fail : Int) : ℚ) / (total : ℚ) * 100) (total - fail) total
        (if 0 < total - fail then
          some ((rttSum : ℚ) / ((total - fail : Int) : ℚ) / 1000000) else none)) ∧
    (total ≠ 0 → 0 ≤ fail → fail ≤ total →
      ((summaryLine addr total fail rttSum).avg = none ↔ total - fail = 0)) ∧
    (∀ d ∈ summaryDivisors total fail, d ≠ 0) := by
  refine ⟨?_, ?_, ?_, ?_⟩
  · unfold summaryLine
    by_cases h : total = 0
    · simp [h]
    · simp [h]
  · intro h
    unfold summaryLine
    rw [if_neg h]
  · intro h _ hle
    unfold summaryLine
    rw [if_neg h]
    by_cases hok : 0 < total - fail
    · simp only [SummaryLine.avg, if_pos hok]
      constructor
      · intro hc
        exact absurd hc (by simp)
      · intro hc
        omega
    · simp only [SummaryLine.avg, if_neg hok]
      constructor
      · intro _
        omega
      · intro _
        trivial
  · intro d hd
    unfold summaryDivisors at hd
    by_cases h : total = 0
    · rw [if_pos h] at hd
      simp at hd
    · rw [if_neg h] at hd
      by_cases hok : 0 < total - fail
      · simp only [if_pos hok] at hd
        rcases List.mem_append.mp hd with h1 | h2
        · simp at h1
          subst h1
          exact Int.cast_ne_zero.mpr h
        · rcases List.mem_cons.mp h2 with h3 | h4
          · subst h3
            have : total - fail ≠ 0 := by omega
            exact Int.cast_ne_zero.mpr this
          · simp at h4
            subst h4
            norm_num
      · simp only [if_neg hok] at hd
        simp at hd
        subst hd
        exact Int.cast_ne_zero.mpr h

/-- Witness for C5 at concrete snapshots: zero probes render the
no-queries line; total 2 with 1 failure has an available average. -/
theorem C5_summary_arithmetic_witness :
    summaryLine "10.0.0.1" 0 0 0 = .noQueries "10.0.0.1" ∧
    ((summaryLine "10.0.0.1" 2 1 3000000).avg = none ↔ (2 : Int) - 1 = 0) :=
  ⟨(C5_summary_arithmetic "10.0.0.1" 0 0 0).1.mpr rfl,
   (C5_summary_arithmetic "10.0.0.1" 2 1 3000000).2.2.1 (by decide) (by decide) (by decide)⟩

/-- The console summary line of `main.go` exactly as `fmt.Printf` renders
it: the format strings are `"  %s → no queries\n"` and
`"  %s → success %.1f %% (%d/%d)  avgRTT %s\n"` with the avgRTT string
either `%.2f ms` or `n/a` (newlines excluded here). -/
def summaryLineString (addr : String) (total fail rttSum : Int) : String :=
  if total = 0 then "  " ++ addr ++ " → no queries"
  else
    let ok := total - fail
    let pct := fmtFixedFrac 1 (ok * 100) total
    let avgRTTms :=
      if 0 < ok then fmtFixedFrac 2 rttSum (ok * 1000000) ++ " ms" else "n/a"
    "  " ++ addr ++ " → success " ++ pct ++ " % (" ++ intStr ok ++ "/" ++ intStr total ++
      ")  avgRTT " ++ avgRTTms

/-- A character a rendered decimal number may contain: a digit or the
decimal point. -/
def numeralChar (c : Char) : Bool := c.isDigit || c == '.'

/-- A nonempty string made only of numeral characters. -/
def numeralStr (s : String) : Prop := s.data ≠ [] ∧ ∀ c ∈ s.data, numeralChar c = true

/-- The line shape claim C9 states for a target that has queries, built
from the claim's template: the percentage immediately followed by the
percent sign. -/
def claimC9Template (addr pct okS totS val : String) : String :=
  ("  " ++ addr ++ " → success ") ++ pct ++ ("% (" ++ okS ++ "/" ++ totS ++ ")  avgRTT ") ++
    val ++ " ms"

/-- Claim C9's statement for snapshots with at least one success: the
rendered line is of the claimed form with numeric pct and avgRTT slots. -/
def claimC9 : Prop :=
  ∀ (addr : String) (total fail rttSum : Int),
    0 < total → 0 ≤ fail → fail < total → 0 ≤ rttSum →
    ∃ pct val : String, numeralStr pct ∧ numeralStr val ∧
      summaryLineString addr total fail rttSum =
        claimC9Template addr pct (intStr (total - fail)) (intStr total) val

theorem dropWhile_append_of_all (p : Char → Bool) (xs ys : List Char)
    (h : ∀ c ∈ xs, p c = true) :
    List.dropWhile p (xs ++ ys) = List.dropWhile p ys := by
  induction xs with
  | nil => rfl
  | cons x xs ih =>
    rw [List.cons_append, List.dropWhile_cons, h x (by simp), if_pos rfl]
    exact ih fun c hc => h c (by simp [hc])

theorem dropWhile_head_of_head_false (p : Char → Bool) (c : Char) (xs ys : List Char)
    (h : xs.head? = some c) (hc : p c = false) :
    (List.dropWhile p (xs ++ ys)).head? = some c := by
  cases xs with
  | nil => simp at h
  | cons x t =>
    simp at h
    subst h
    rw [List.cons_append, List.dropWhile_cons, hc]
    rfl

/-- Counterexample to claim C9: at the snapshot (total 1, fail 0, rtt sum
2ms) the program prints "  10.0.0.1 → success 100.0 % (1/1)  avgRTT
2.00 ms" — a space between the percentage and the percent sign — which no
instantiation of the claimed template "success <pct>% (..." can produce,
since the character after the numeric pct slot would have to be the
percent sign. -/
theorem C9_counterexample : ¬ claimC9 := by
  intro h
  obtain ⟨pct, val, hpct, _, heq⟩ :=
    h "10.0.0.1" 1 0 2000000 (by decide) (by decide) (by decide) (by decide)
  have hfix1 : ("  " ++ "10.0.0.1" ++ " → success " : String) = "  10.0.0.1 → success " := by
    decide
  have hfix2 : ("% (" ++ intStr ((1 : Int) - 0) ++ "/" ++ intStr (1 : Int) ++ ")  avgRTT " :
      String) = "% (1/1)  avgRTT " := by decide
  rw [claimC9Template, hfix1, hfix2] at heq
  have hd := congrArg String.data heq
  simp only [String.data_append, List.append_assoc] at hd
  have hL : (summaryLineString "10.0.0.1" 1 0 2000000).data =
      ("  10.0.0.1 → success " : String).data ++
        ("100.0 % (1/1)  avgRTT 2.00 ms" : String).data := by decide
  rw [hL] at hd
  have hR := List.append_cancel_left hd
  have h1 : (List.dropWhile numeralChar
      (("100.0 % (1/1)  avgRTT 2.00 ms" : String).data)).head? = some ' ' := by decide
  rw [hR] at h1
  rw [dropWhile_append_of_all numeralChar pct.data _ hpct.2] at h1
  rw [dropWhile_head_of_head_false numeralChar '%'
    (("% (1/1)  avgRTT " : String).data) (val.data ++ (" ms" : String).data)
    (by decide) (by decide)] at h1
  exact absurd h1 (by decide)

theorem numeralChar_of_isDigit (c : Char) (h : c.isDigit = true) : numeralChar c = true := by
  unfold numeralChar
  rw [h]
  rfl

theorem fmtFixedFrac_numeral (d : Nat) (num den : Int) :
    numeralStr (fmtFixedFrac d num den) := by
  unfold fmtFixedFrac numeralStr
  constructor
  · intro h
    rcases List.append_eq_nil.mp h with ⟨_, h2⟩
    exact List.cons_ne_nil _ _ h2
  · intro c hc
    rcases List.mem_append.mp hc with h1 | h2
    · exact numeralChar_of_isDigit c (natDigits_all_digit _ c h1)
    · rcases List.mem_cons.mp h2 with h3 | h4
      · subst h3
        rfl
      · rcases List.mem_append.mp h4 with h5 | h6
        · have := List.eq_of_mem_replicate h5
          subst this
          rfl
        · exact numeralChar_of_isDigit c (natDigits_all_digit _ c h6)

/-- Claim C9 amended: the rendered summary line has a space between the
percentage and the percent sign — `  <address> → success <pct> %
(<ok>/<total>)  avgRTT <value> ms`, with avgRTT shown as `n/a` (and no
` ms` suffix) when there are zero successes, and `  <address> → no
queries` when total == 0. -/
theorem C9_amended_format (addr : String) (total fail rttSum : Int) :
    (total = 0 → summaryLineString addr total fail rttSum = "  " ++ addr ++ " → no queries") ∧
    (total ≠ 0 → fail < total → ∃ pct val : String, numeralStr pct ∧ numeralStr val ∧
      summaryLineString addr total fail rttSum =
        ("  " ++ addr ++ " → success ") ++ pct ++ (" % (" ++ intStr (total - fail) ++ "/" ++
          intStr total ++ ")  avgRTT ") ++ val ++ " ms") ∧
    (total ≠ 0 → total ≤ fail → ∃ pct : String, numeralStr pct ∧
      summaryLineString addr total fail rttSum =
        ("  " ++ addr ++ " → success ") ++ pct ++ (" % (" ++ intStr (total - fail) ++ "/" ++
          intStr total ++ ")  avgRTT ") ++ "n/a") := by
  refine ⟨?_, ?_, ?_⟩
  · intro h
    unfold summaryLineString
    rw [if_pos h]
  · intro h hlt
    refine ⟨fmtFixedFrac 1 ((total - fail) * 100) total,
      fmtFixedFrac 2 rttSum ((total - fail) * 1000000),
      fmtFixedFrac_numeral 1 ((total - fail) * 100) total,
      fmtFixedFrac_numeral 2 rttSum ((total - fail) * 1000000), ?_⟩
    unfold summaryLineString
    rw [if_neg h]
    have hok : (0 : Int) < total - fail := by omega
    simp only [if_pos hok]
    simp [String.append_assoc]
  · intro h hge
    refine ⟨fmtFixedFrac 1 ((total - fail) * 100) total,
      fmtFixedFrac_numeral 1 ((total - fail) * 100) total, ?_⟩
    unfold summaryLineString
    rw [if_neg h]
    have hok : ¬ (0 : Int) < total - fail := by omega
    simp only [if_neg hok]
    simp [String.append_assoc]

/-- Witness for the amended C9 at the counterexample snapshot: total 1,
fail 0, rtt sum 2ms renders with the spaced percent sign. -/
theorem C9_amended_format_witness :
    ∃ pct val : String, numeralStr pct ∧ numeralStr val ∧
      summaryLineString "10.0.0.1" 1 0 2000000 =
        ("  " ++ "10.0.0.1" ++ " → success ") ++ pct ++ (" % (" ++ intStr ((1 : Int) - 0) ++
          "/" ++ intStr (1 : Int) ++ ")  avgRTT ") ++ val ++ " ms" :=
  (C9_amended_format "10.0.0.1" 1 0 2000000).2.1 (by decide) (by decide)

/-- What the startup phase of `main` decides: abort the process via
`log.Fatalf` with a diagnostic, or proceed with the discovered servers. -/
inductive StartupResult
  | fatal (msg : String)
  | proceed (servers : List String)
deriving DecidableEq

/-- The nested discovery loops of `main.go` (lines 76-81): for each
EndpointSlice, for each endpoint, append its addresses. -/
def collectServers (slices : List (List (List String))) : List String :=
  slices.foldl (fun acc es => es.foldl (fun acc2 ep => acc2 ++ ep) acc) []

/-- The startup decision of `main.go` (lines 70-84) on the result of the
EndpointSlices List call: a failed call is fatal (line 73); an empty
server set is fatal (lines 82-84); otherwise probing proceeds. -/
def startup (listResult : Except String (List (List (List String)))) : StartupResult :=
  match listResult with
  | .error e => .fatal ("listing EndpointSlices failed: " ++ e)
  | .ok slices =>
    let servers := collectServers slices
    if servers.length = 0 then
      .fatal "no CoreDNS pod IPs found in EndpointSlices"
    else
      .proceed servers

/-- Claim C6's abort clause as stated: an empty discovered target set is
the only error condition that aborts the process. -/
def claimC6 : Prop :=
  ∀ r, (∃ m, startup r = .fatal m) →
    ∃ slices, r = .ok slices ∧ (collectServers slices).length = 0

/-- Counterexample to claim C6: a failed EndpointSlices List call (for
example a refused connection to the API server) also aborts the process
with `log.Fatalf`, without the discovered target set being empty — the
discovery never produced a set at all. -/
theorem C6_counterexample : ¬ claimC6 := by
  intro h
  obtain ⟨slices, hs, _⟩ := h (.error "connection refused") ⟨_, rfl⟩
  exact Except.noConfusion hs

/-- Claim C6 amended: at startup the process aborts with a diagnostic
exactly when the discovery call fails or the discovered target set is
empty; and every per-probe outcome, error or not, is recorded as data by
the total probe-goroutine body, which never aborts. -/
theorem C6_amended_startup (r : Except String (List (List (List String)))) :
    ((∃ m, startup r = .fatal m) ↔
      (∃ e, r = .error e) ∨ (∃ s, r = .ok s ∧ (collectServers s).length = 0)) ∧
    (∀ (qt : Nat) (addr : String) (st : EpStats) (pr : ProbeResult),
      ((probeStep qt addr st pr).1).total = st.total + 1 ∧
      (probeStep qt addr st pr).1 = recordOutcome st (classify qt pr) pr.rtt) := by
  constructor
  · cases r with
    | error e =>
      constructor
      · intro _
        exact Or.inl ⟨e, rfl⟩
      · intro _
        exact ⟨_, rfl⟩
    | ok s =>
      by_cases h : (collectServers s).length = 0
      · constructor
        · intro _
          exact Or.inr ⟨s, rfl, h⟩
        · intro _
          refine ⟨"no CoreDNS pod IPs found in EndpointSlices", ?_⟩
          simp only [startup]
          rw [if_pos h]
      · constructor
        · intro ⟨m, hm⟩
          simp only [startup] at hm
          rw [if_neg h] at hm
          exact StartupResult.noConfusion hm
        · intro hc
          rcases hc with ⟨e, he⟩ | ⟨s', hs', hlen⟩
          · exact Except.noConfusion he
          · have hss : s = s' := by injection hs'
            subst hss
            exact absurd hlen h
  · intro qt addr st pr
    rw [probeStep_fst]
    exact ⟨rfl, rfl⟩

/-- Witness for the amended C6: a failed discovery call aborts, an empty
target set aborts, and a probe that errors is still recorded as data. -/
theorem C6_amended_startup_witness :
    (∃ m, startup (.error "connection refused") = .fatal m) ∧
    (∃ m, startup (.ok [[], [[]]]) = .fatal m) ∧
    ((probeStep 100 "10.0.0.1" EpStats.zero ⟨40, some (.other "refused")⟩).1).total =
      EpStats.zero.total + 1 :=
  ⟨(C6_amended_startup (.error "connection refused")).1.mpr (Or.inl ⟨_, rfl⟩),
   (C6_amended_startup (.ok [[], [[]]])).1.mpr (Or.inr ⟨_, rfl, by decide⟩),
   ((C6_amended_startup (.ok [])).2 100 "10.0.0.1" EpStats.zero
     ⟨40, some (.other "refused")⟩).1⟩

/-- One atomic operation on the epStats counters: the Add(1) and Add(rtt)
calls the probe goroutine performs on the atomic.Int64 fields. -/
inductive StatAction
  | addTotal
  | addFail
  | addRtt (e : Nat)
deriving DecidableEq

/-- The effect of one atomic counter operation.  Atomicity means each
action applies indivisibly; an interleaving of goroutines is a sequence of
these actions. -/
def applyAction (st : EpStats) : StatAction → EpStats
  | .addTotal => { st with total := st.total + 1 }
  | .addFail => { st with fail := st.fail + 1 }
  | .addRtt e => { st with rttNanos := st.rttNanos + (e : Int) }

/-- The sequence of atomic actions one recordOutcome invocation performs,
in the order the goroutine body issues them: bump total, then either add
the rtt (success) or bump fail. -/
def recordActions (o : QueryStatus) (e : Nat) : List StatAction :=
  .addTotal :: (if o = .success then [.addRtt e] else [.addFail])

/-- tr is an arbitrary interleaving of the given action sequences: an
order-preserving merge, each step picking the next pending action of any
one goroutine. -/
inductive Interleave : List (List StatAction) → List StatAction → Prop
  | base (ls : List (List StatAction)) (h : ∀ l ∈ ls, l = []) : Interleave ls []
  | pick (pre post : List (List StatAction)) (rest : List StatAction) (a : StatAction)
      (tr : List StatAction) :
      Interleave (pre ++ rest :: post) tr →
      Interleave (pre ++ (a :: rest) :: post) (a :: tr)

/-- The contribution of one action to the total counter. -/
def actTotal : StatAction → Int
  | .addTotal => 1
  | _ => 0

/-- The contribution of one action to the fail counter. -/
def actFail : StatAction → Int
  | .addFail => 1
  | _ => 0

/-- The contribution of one action to the rttNanos counter. -/
def actRtt : StatAction → Int
  | .addRtt e => (e : Int)
  | _ => 0

theorem interleave_map_sum (f : StatAction → Int) (ls : List (List StatAction))
    (tr : List StatAction) (h : Interleave ls tr) :
    (tr.map f).sum = (ls.map fun l => (l.map f).sum).sum := by
  induction h with
  | base ls hl =>
    simp only [List.map_nil, List.sum_nil]
    symm
    apply List.sum_eq_zero
    intro x hx
    obtain ⟨l, hmem, hval⟩ := List.mem_map.mp hx
    rw [hl l hmem] at hval
    simp at hval
    omega
  | pick pre post rest a tr _ ih =>
    simp only [List.map_cons, List.sum_cons, List.map_append, List.sum_append] at *
    omega

theorem foldl_applyAction (tr : List StatAction) (st : EpStats) :
    tr.foldl applyAction st =
      ⟨st.total + (tr.map actTotal).sum, st.fail + (tr.map actFail).sum,
        st.rttNanos + (tr.map actRtt).sum⟩ := by
  induction tr generalizing st with
  | nil =>
    simp only [List.foldl_nil, List.map_nil, List.sum_nil, add_zero]
  | cons a tr ih =>
    rw [List.foldl_cons, ih]
    cases a <;>
      simp only [applyAction, actTotal, actFail, actRtt, List.map_cons, List.sum_cons,
        EpStats.mk.injEq] <;>
      refine ⟨by omega, by omega, by omega⟩

theorem recordActions_sums (o : QueryStatus) (e : Nat) :
    ((recordActions o e).map actTotal).sum = 1 ∧
    ((recordActions o e).map actFail).sum = (if o = .success then 0 else 1) ∧
    ((recordActions o e).map actRtt).sum = (if o = .success then (e : Int) else 0) := by
  by_cases h : o = .success <;>
    simp [recordActions, h, actTotal, actFail, actRtt]

theorem ops_sum_total (ops : List (QueryStatus × Nat)) :
    ((ops.map fun oe => recordActions oe.1 oe.2).map fun l => (l.map actTotal).sum).sum =
      (ops.length : Int) := by
  induction ops with
  | nil => simp
  | cons op ops ih =>
    simp only [List.map_cons, List.sum_cons, List.length_cons, ih,
      (recordActions_sums op.1 op.2).1]
    push_cast
    ring

theorem ops_sum_fail (ops : List (QueryStatus × Nat)) :
    ((ops.map fun oe => recordActions oe.1 oe.2).map fun l => (l.map actFail).sum).sum =
      ((ops.filter fun oe => !(oe.1 == .success)).length : Int) := by
  induction ops with
  | nil => simp
  | cons op ops ih =>
    simp only [List.map_cons, List.sum_cons, ih, (recordActions_sums op.1 op.2).2.1,
      List.filter_cons]
    by_cases h : op.1 = .success
    · simp [h]
    · have hb : (op.1 == QueryStatus.success) = false := by
        simp [h]
      simp only [if_neg h, hb, Bool.not_false, if_true, List.length_cons]
      push_cast
      ring

theorem ops_sum_rtt (ops : List (QueryStatus × Nat)) :
    ((ops.map fun oe => recordActions oe.1 oe.2).map fun l => (l.map actRtt).sum).sum =
      (((ops.filter fun oe => oe.1 == .success).map fun oe => ((oe.2 : Int))).sum) := by
  induction ops with
  | nil => simp
  | cons op ops ih =>
    simp only [List.map_cons, List.sum_cons, ih, (recordActions_sums op.1 op.2).2.2,
      List.filter_cons]
    by_cases h : op.1 = .success
    · have hb : (op.1 == QueryStatus.success) = true := by
        simp [h]
      rw [hb]
      simp [h]
    · have hb : (op.1 == QueryStatus.success) = false := by
        simp [h]
      rw [hb]
      simp [h]

/-- Claim C8: M concurrent recordOutcome invocations on one target's
statistics, interleaved arbitrarily, leave total == M — and in fact no
updates are lost on any of the three counters: fail is the number of
non-success invocations and rttNanos the sum of the successful elapsed
times. -/
theorem C8_concurrent_no_lost_updates (ops : List (QueryStatus × Nat))
    (tr : List StatAction)
    (h : Interleave (ops.map fun oe => recordActions oe.1 oe.2) tr) :
    (tr.foldl applyAction EpStats.zero).total = ops.length ∧
    (tr.foldl applyAction EpStats.zero).fail =
      ((ops.filter fun oe => !(oe.1 == .success)).length : Int) ∧
    (tr.foldl applyAction EpStats.zero).rttNanos =
      (((ops.filter fun oe => oe.1 == .success).map fun oe => ((oe.2 : Int))).sum) := by
  rw [foldl_applyAction]
  have hT := interleave_map_sum actTotal _ _ h
  have hF := interleave_map_sum actFail _ _ h
  have hR := interleave_map_sum actRtt _ _ h
  rw [ops_sum_total] at hT
  rw [ops_sum_fail] at hF
  rw [ops_sum_rtt] at hR
  refine ⟨?_, ?_, ?_⟩
  · show (0 : Int) + (tr.map actTotal).sum = _
    omega
  · show (0 : Int) + (tr.map actFail).sum = _
    omega
  · show (0 : Int) + (tr.map actRtt).sum = _
    rw [hR]
    ring

/-- A concrete genuinely-interleaved schedule of two recordOutcome
invocations (a success taking 5ns and a timeout): both totals are bumped
before either goroutine finishes. -/
theorem C8_witness_interleave :
    Interleave
      [[StatAction.addTotal, .addRtt 5], [StatAction.addTotal, .addFail]]
      [StatAction.addTotal, .addTotal, .addFail, .addRtt 5] := by
  have h4 : Interleave [[], []] [] := .base _ (by simp)
  have h3 : Interleave [[StatAction.addRtt 5], []] [StatAction.addRtt 5] :=
    .pick [] [[]] [] (.addRtt 5) [] h4
  have h2 : Interleave [[StatAction.addRtt 5], [StatAction.addFail]]
      [StatAction.addFail, .addRtt 5] :=
    .pick [[StatAction.addRtt 5]] [] [] .addFail _ h3
  have h1 : Interleave [[StatAction.addRtt 5], [StatAction.addTotal, .addFail]]
      [StatAction.addTotal, .addFail, .addRtt 5] :=
    .pick [[StatAction.addRtt 5]] [] [.addFail] .addTotal _ h2
  exact .pick [] [[StatAction.addTotal, .addFail]] [.addRtt 5] .addTotal _ h1

/-- Witness for C8 at the concrete two-goroutine interleaving: total
ends at 2 and the success rtt is accumulated. -/
theorem C8_witness :
    (([StatAction.addTotal, .addTotal, .addFail, .addRtt 5].foldl applyAction
      EpStats.zero).total = ([((.success : QueryStatus), 5), ((.timeout : QueryStatus), 7)] :
        List (QueryStatus × Nat)).length) ∧
    ([StatAction.addTotal, .addTotal, .addFail, .addRtt 5].foldl applyAction
      EpStats.zero).rttNanos = 5 :=
  have h := C8_concurrent_no_lost_updates
    [((.success : QueryStatus), 5), ((.timeout : QueryStatus), 7)]
    [StatAction.addTotal, .addTotal, .addFail, .addRtt 5] C8_witness_interleave
  ⟨h.1, by rw [h.2.2]; decide⟩

/-- Where the main loop of `main.go` is within one probe-ticker case:
at the select (idle), launching goroutines (fanout, with the number of
targets still to launch), or blocked in wg.Wait (waiting). -/
inductive SchedPhase
  | idle
  | fanout (remaining : Nat)
  | waiting
deriving DecidableEq

/-- Scheduler state: the index of the current tick, the loop position and
the WaitGroup membership — one tag per probe goroutine still running,
carrying the tick that launched it. -/
structure SchedState where
  tick : Nat
  phase : SchedPhase
  inFlight : List Nat
deriving DecidableEq

/-- Observable scheduler events: a probe goroutine of some tick is
launched, or one completes (its deferred wg.Done). -/
inductive SchedEvent
  | launch (tick : Nat)
  | complete (tick : Nat)
deriving DecidableEq

/-- Small-step semantics of the probe-ticker case of `main.go` (lines
101-126) with n targets: a tick starts only at the select; each launch
does wg.Add(1) and go; completions can interleave arbitrarily with
launches and with waiting; wg.Wait returns only when the WaitGroup is
empty, after which the loop is back at the select.  The summary-ticker
case launches nothing and runs only at the select, so it is irrelevant to
these events. -/
inductive SchedStep (n : Nat) : SchedState → List SchedEvent → SchedState → Prop
  | startTick (t : Nat) (fl : List Nat) :
      SchedStep n ⟨t, .idle, fl⟩ [] ⟨t + 1, .fanout n, fl⟩
  | launch (t k : Nat) (fl : List Nat) :
      SchedStep n ⟨t, .fanout (k + 1), fl⟩ [.launch t] ⟨t, .fanout k, t :: fl⟩
  | fanoutDone (t : Nat) (fl : List Nat) :
      SchedStep n ⟨t, .fanout 0, fl⟩ [] ⟨t, .waiting, fl⟩
  | complete (t t' : Nat) (ph : SchedPhase) (l1 l2 : List Nat) :
      SchedStep n ⟨t, ph, l1 ++ t' :: l2⟩ [.complete t'] ⟨t, ph, l1 ++ l2⟩
  | waitDone (t : Nat) :
      SchedStep n ⟨t, .waiting, []⟩ [] ⟨t, .idle, []⟩

/-- Executions of the scheduler: event traces reachable from the initial
state (before the first tick) together with the state they end in. -/
inductive SchedReaches (n : Nat) : List SchedEvent → SchedState → Prop
  | init : SchedReaches n [] ⟨0, .idle, []⟩
  | step (tr : List SchedEvent) (s : SchedState) (evs : List SchedEvent) (s' : SchedState) :
      SchedReaches n tr s → SchedStep n s evs s' → SchedReaches n (tr ++ evs) s'

/-- Number of launch events of tick t in a trace. -/
def countLaunch (t : Nat) : List SchedEvent → Nat
  | [] => 0
  | e :: es => (if e = SchedEvent.launch t then 1 else 0) + countLaunch t es

/-- Number of completion events of tick t in a trace. -/
def countComplete (t : Nat) : List SchedEvent → Nat
  | [] => 0
  | e :: es => (if e = SchedEvent.complete t then 1 else 0) + countComplete t es

/-- Number of occurrences of tag t in the WaitGroup membership list. -/
def countTag (t : Nat) : List Nat → Nat
  | [] => 0
  | x :: xs => (if x = t then 1 else 0) + countTag t xs

theorem countLaunch_append (t : Nat) (a b : List SchedEvent) :
    countLaunch t (a ++ b) = countLaunch t a + countLaunch t b := by
  induction a with
  | nil => simp [countLaunch]
  | cons x xs ih =>
    show (if x = SchedEvent.launch t then 1 else 0) + countLaunch t (xs ++ b) =
      ((if x = SchedEvent.launch t then 1 else 0) + countLaunch t xs) + countLaunch t b
    rw [ih]
    omega

theorem countComplete_append (t : Nat) (a b : List SchedEvent) :
    countComplete t (a ++ b) = countComplete t a + countComplete t b := by
  induction a with
  | nil => simp [countComplete]
  | cons x xs ih =>
    show (if x = SchedEvent.complete t then 1 else 0) + countComplete t (xs ++ b) =
      ((if x = SchedEvent.complete t then 1 else 0) + countComplete t xs) + countComplete t b
    rw [ih]
    omega

theorem countTag_append (t : Nat) (a b : List Nat) :
    countTag t (a ++ b) = countTag t a + countTag t b := by
  induction a with
  | nil => simp [countTag]
  | cons x xs ih =>
    show (if x = t then 1 else 0) + countTag t (xs ++ b) =
      ((if x = t then 1 else 0) + countTag t xs) + countTag t b
    rw [ih]
    omega

theorem countTag_eq_zero (t : Nat) (l : List Nat) (h : ∀ x ∈ l, x ≠ t) :
    countTag t l = 0 := by
  induction l with
  | nil => rfl
  | cons x xs ih =>
    simp only [countTag]
    rw [if_neg (h x (by simp))]
    have := ih fun y hy => h y (by simp [hy])
    omega

/-- The inductive invariant: every in-flight probe belongs to the current
tick; the loop is at the select only with an empty WaitGroup; and per
tick, launches seen equal completions seen plus probes still in flight. -/
def SchedInv (tr : List SchedEvent) (s : SchedState) : Prop :=
  (∀ t ∈ s.inFlight, t = s.tick) ∧
  (s.phase = .idle → s.inFlight = []) ∧
  (∀ t, countLaunch t tr = countComplete t tr + countTag t s.inFlight)

/-- The invariant holds in every reachable state. -/
theorem sched_inv (n : Nat) (tr : List SchedEvent) (s : SchedState)
    (h : SchedReaches n tr s) : SchedInv tr s := by
  induction h with
  | init =>
    exact ⟨by simp, fun _ => rfl, fun t => rfl⟩
  | step tr s evs s' hr hstep ih =>
    obtain ⟨ih1, ih2, ih3⟩ := ih
    cases hstep with
    | startTick t fl =>
      have hfl : fl = [] := ih2 rfl
      subst hfl
      refine ⟨by simp, fun hph => rfl, fun u => ?_⟩
      rw [List.append_nil]
      exact ih3 u
    | launch t k fl =>
      refine ⟨?_, fun hph => SchedPhase.noConfusion hph, fun u => ?_⟩
      · intro x hx
        rcases List.mem_cons.mp hx with h1 | h2
        · exact h1
        · exact ih1 x h2
      · show countLaunch u (tr ++ [SchedEvent.launch t]) =
          countComplete u (tr ++ [SchedEvent.launch t]) + countTag u (t :: fl)
        rw [countLaunch_append, countComplete_append]
        have hL : countLaunch u [SchedEvent.launch t] = (if t = u then 1 else 0) := by
          simp [countLaunch]
        have hC : countComplete u [SchedEvent.launch t] = 0 := by
          simp [countComplete]
        have hT : countTag u (t :: fl) = (if t = u then 1 else 0) + countTag u fl := by
          simp [countTag]
        rw [hL, hC, hT]
        have hu : countLaunch u tr = countComplete u tr + countTag u fl := ih3 u
        omega
    | fanoutDone t fl =>
      refine ⟨ih1, fun hph => SchedPhase.noConfusion hph, fun u => ?_⟩
      rw [List.append_nil]
      exact ih3 u
    | complete t t' ph l1 l2 =>
      refine ⟨?_, ?_, fun u => ?_⟩
      · intro x hx
        apply ih1
        rcases List.mem_append.mp hx with h1 | h2
        · exact List.mem_append.mpr (Or.inl h1)
        · exact List.mem_append.mpr (Or.inr (List.mem_cons_of_mem _ h2))
      · intro hph
        have := ih2 hph
        exact absurd this (by simp)
      · show countLaunch u (tr ++ [SchedEvent.complete t']) =
          countComplete u (tr ++ [SchedEvent.complete t']) + countTag u (l1 ++ l2)
        rw [countLaunch_append, countComplete_append]
        have hL : countLaunch u [SchedEvent.complete t'] = 0 := by
          simp [countLaunch]
        have hC : countComplete u [SchedEvent.complete t'] = (if t' = u then 1 else 0) := by
          simp [countComplete]
        have hold : countLaunch u tr = countComplete u tr + countTag u (l1 ++ t' :: l2) :=
          ih3 u
        rw [countTag_append] at hold ⊢
        have hmid : countTag u (t' :: l2) = (if t' = u then 1 else 0) + countTag u l2 := by
          simp [countTag]
        rw [hmid] at hold
        rw [hL, hC]
        omega
    | waitDone t =>
      refine ⟨ih1, fun _ => rfl, fun u => ?_⟩
      rw [List.append_nil]
      exact ih3 u

/-- Every event in a reachable trace is emitted by a step taken from a
state reachable by the prefix before it. -/
theorem reaches_split (n : Nat) (tr : List SchedEvent) (s : SchedState)
    (h : SchedReaches n tr s) :
    ∀ tr1 e tr2, tr = tr1 ++ e :: tr2 →
      ∃ s1 s2, SchedReaches n tr1 s1 ∧ SchedStep n s1 [e] s2 := by
  induction h with
  | init =>
    intro tr1 e tr2 heq
    exact absurd heq (by cases tr1 <;> simp)
  | step tr s evs s' hr hstep ih =>
    intro tr1 e tr2 heq
    have hevs : evs = [] ∨ ∃ ev, evs = [ev] := by
      cases hstep
      · exact Or.inl rfl
      · exact Or.inr ⟨_, rfl⟩
      · exact Or.inl rfl
      · exact Or.inr ⟨_, rfl⟩
      · exact Or.inl rfl
    rcases hevs with rfl | ⟨ev, rfl⟩
    · rw [List.append_nil] at heq
      exact ih tr1 e tr2 heq
    · rcases List.eq_nil_or_concat tr2 with rfl | ⟨tr2', e2, rfl⟩
      · obtain ⟨rfl, hev⟩ := List.append_inj' heq rfl
        have : ev = e := by injection hev
        subst this
        exact ⟨s, s', hr, hstep⟩
      · rw [List.concat_eq_append, ← List.cons_append, ← List.append_assoc] at heq
        obtain ⟨rfl, hev⟩ := List.append_inj' heq rfl
        exact ih tr1 e tr2' rfl

/-- Claim C4: in every scheduler execution, all probe goroutines launched
in earlier ticks have completed before any probe of a later tick is
launched (completion counts of every earlier tick match its launch counts
at the moment of the launch), and probes of two different ticks are never
in flight simultaneously. -/
theorem C4_tick_barrier (n : Nat) (tr1 tr2 : List SchedEvent) (t' : Nat) (s : SchedState)
    (h : SchedReaches n (tr1 ++ SchedEvent.launch t' :: tr2) s) :
    (∀ t, t < t' → countComplete t tr1 = countLaunch t tr1) ∧
    (∀ (tr : List SchedEvent) (s2 : SchedState), SchedReaches n tr s2 →
      ∀ a ∈ s2.inFlight, ∀ b ∈ s2.inFlight, a = b) := by
  constructor
  · intro t ht
    obtain ⟨s1, s2, hr1, hstep⟩ := reaches_split n _ s h tr1 (.launch t') tr2 rfl
    have inv := sched_inv n tr1 s1 hr1
    cases hstep with
    | launch tt k fl =>
      obtain ⟨inv1, _, inv3⟩ := inv
      have hz : countTag t fl = 0 := by
        apply countTag_eq_zero
        intro x hx
        have hx2 : x = t' := inv1 x hx
        omega
      have hi : countLaunch t tr1 = countComplete t tr1 + countTag t fl := inv3 t
      omega
  · intro tr s2 hr a ha b hb
    have inv := sched_inv n tr s2 hr
    rw [inv.1 a ha, inv.1 b hb]

/-- Witness for C4 on a concrete one-target execution of two ticks:
tick 1's probe completed before tick 2 launched. -/
theorem C4_witness :
    countComplete 1 [SchedEvent.launch 1, SchedEvent.complete 1] =
      countLaunch 1 [SchedEvent.launch 1, SchedEvent.complete 1] := by
  have h0 : SchedReaches 1 [] ⟨0, .idle, []⟩ := .init
  have h1 : SchedReaches 1 [] ⟨1, .fanout 1, []⟩ :=
    .step _ _ _ _ h0 (.startTick 0 [])
  have h2 : SchedReaches 1 [SchedEvent.launch 1] ⟨1, .fanout 0, [1]⟩ :=
    .step _ _ _ _ h1 (.launch 1 0 [])
  have h3 : SchedReaches 1 [SchedEvent.launch 1] ⟨1, .waiting, [1]⟩ :=
    .step _ _ _ _ h2 (.fanoutDone 1 [1])
  have h4 : SchedReaches 1 [SchedEvent.launch 1, SchedEvent.complete 1] ⟨1, .waiting, []⟩ :=
    .step _ _ _ _ h3 (.complete 1 1 .waiting [] [])
  have h5 : SchedReaches 1 [SchedEvent.launch 1, SchedEvent.complete 1] ⟨1, .idle, []⟩ :=
    .step _ _ _ _ h4 (.waitDone 1)
  have h6 : SchedReaches 1 [SchedEvent.launch 1, SchedEvent.complete 1] ⟨2, .fanout 1, []⟩ :=
    .step _ _ _ _ h5 (.startTick 1 [])
  have h7 : SchedReaches 1
      [SchedEvent.launch 1, SchedEvent.complete 1, SchedEvent.launch 2]
      ⟨2, .fanout 0, [2]⟩ :=
    .step _ _ _ _ h6 (.launch 2 0 [])
  exact (C4_tick_barrier 1 [SchedEvent.launch 1, SchedEvent.complete 1] [] 2
    ⟨2, .fanout 0, [2]⟩ h7).1 1 (by omega)

end CorednsProbe
